import Mathlib

/-!
Verification development for the URBISOL neighborhood-voting backend.

The definitions below are a shallow embedding of the parts of the
repository that the integrity claims are about:

* the `vote_tokens`, `votes` and `fiscal_votes` tables and their
  uniqueness constraints (sql/001_schema.sql, sql/004/005 migrations);
* the voting route handlers `POST /votar/:token` (council ballot),
  `POST /votar/:token/fiscales` (fiscal ballot) and `GET /votar/:token`
  (server.js); the database is modelled as an explicit state record and
  each handler as a state-passing function whose result constructor
  names the HTTP response the source produces;
* the admin token issuing step shared by `POST /admin/solicitudes/:id/aprobar`
  and `/reemitir` (revoke the unit's ACTIVE tokens, insert a fresh one);
* the auth middleware `requireAdmin` / `requireViewerOrAdmin` (middleware.js);
* the offline chain verifier `verifyTable` of scripts/verify_chain.mjs.

SHA-256 is not re-implemented: wherever the source computes
sha256Hex(JSON.stringify(payload)) over the seven-field canonical payload,
the embedding takes an abstract function from the payload record to a
string, and wherever it computes sha256Hex of the concatenated digests it
takes an abstract function on strings.  Serial row ids that no claim
depends on are projected away; the token id is kept because the handlers
update tokens by id.
-/

namespace Urbisol

/-- Lifecycle states of a voting credential, from the `token_status`
enum in sql/001_schema.sql. -/
inductive TokenStatus
| ACTIVE
| USED
| REVOKED
| EXPIRED
deriving DecidableEq, Repr

/-- One row of `vote_tokens` (sql/001_schema.sql plus the `election_id`
column added by migration 003); `used_at` timestamps are dropped as no
claim mentions them. -/
structure VoteToken where
  id : Int
  registration_id : Int
  unit_id : Int
  token_hash : String
  status : TokenStatus
  election_id : Int
deriving DecidableEq, Repr

/-- One row of `votes` (sql/001_schema.sql, `election_id` from migration
003, the three chain columns from migration 005).  The chain columns are
nullable in the schema, hence `Option`. -/
structure VoteRow where
  election_id : Int
  unit_id : Int
  candidate_id : Int
  token_id : Int
  cast_at : String
  ip : String
  user_agent : String
  chain_position : Option Int
  previous_hash : Option String
  vote_hash : Option String
deriving DecidableEq, Repr

/-- One row of `fiscal_votes` (sql/004 and 005 migrations). -/
structure FiscalVoteRow where
  election_id : Int
  unit_id : Int
  fiscal_list_id : Int
  token_id : Int
  cast_at : String
  ip : String
  user_agent : String
  chain_position : Option Int
  previous_hash : Option String
  vote_hash : Option String
deriving DecidableEq, Repr

/-- The persisted state the voting handlers read and write. -/
structure DB where
  tokens : List VoteToken
  votes : List VoteRow
  fiscal_votes : List FiscalVoteRow
deriving DecidableEq, Repr

/-- Embedding of the row lookup
`SELECT * FROM vote_tokens WHERE token_hash=$1 AND election_id=$2`
used (with FOR UPDATE) by both cast handlers and by the GET handler. -/
def findToken (db : DB) (tokenHash : String) (electionId : Int) : Option VoteToken :=
  db.tokens.find? (fun t => t.token_hash == tokenHash && t.election_id == electionId)

/-- Embedding of
`UPDATE vote_tokens SET status='USED', used_at=NOW() WHERE id=$1`. -/
def markUsed (db : DB) (tokenId : Int) : DB :=
  { db with tokens := db.tokens.map (fun t =>
      if t.id == tokenId then { t with status := TokenStatus.USED } else t) }

/-- Condition under which `INSERT INTO votes` raises a 23505 unique
violation: the schema constraint on `votes` is `UNIQUE(unit_id)`
(sql/001_schema.sql). -/
def votesInsertConflict (db : DB) (unitId : Int) : Bool :=
  db.votes.any (fun v => v.unit_id == unitId)

/-- Condition under which `INSERT INTO fiscal_votes` raises a 23505
unique violation: the constraint is `UNIQUE(election_id, unit_id)`
(sql/005 migration). -/
def fiscalInsertConflict (db : DB) (electionId unitId : Int) : Bool :=
  db.fiscal_votes.any (fun v => v.election_id == electionId && v.unit_id == unitId)

/-- Responses the council cast route `POST /votar/:token` can produce
once the window and body checks have passed (each constructor names the
concrete response in the source). -/
inductive CouncilResult
| invalidLink
| voteUsed
| redirectBallot
| serverError
deriving DecidableEq, Repr

/-- Embedding of the transaction body of `POST /votar/:token`
(server.js): lock the token row by hash; 404 when absent; render
`vote_used` when the status is not ACTIVE; insert the council vote row
(no chain columns are supplied, and the UPDATE of the token to USED is
commented out in the source); a unique-constraint violation is caught
and rendered as `vote_used`; on success the handler redirects back to
the ballot view. -/
def postVotarToken (db : DB) (tokenHash : String) (electionId candidateId : Int)
    (ip userAgent castAt : String) : DB × CouncilResult :=
  match findToken db tokenHash electionId with
  | none => (db, CouncilResult.invalidLink)
  | some vt =>
    if vt.status ≠ TokenStatus.ACTIVE then (db, CouncilResult.voteUsed)
    else if votesInsertConflict db vt.unit_id then (db, CouncilResult.voteUsed)
    else
      ({ db with votes := db.votes ++
          [{ election_id := electionId, unit_id := vt.unit_id,
             candidate_id := candidateId, token_id := vt.id,
             cast_at := castAt, ip := ip, user_agent := userAgent,
             chain_position := none, previous_hash := none, vote_hash := none }] },
       CouncilResult.redirectBallot)

/-- Responses the fiscal cast route `POST /votar/:token/fiscales` can
produce once the window and body checks have passed. -/
inductive FiscalResult
| invalidLink
| voteUsed
| redirectBallot
| voteDone
| serverError
deriving DecidableEq, Repr

/-- Embedding of the transaction body of `POST /votar/:token/fiscales`
(server.js): lock the token row; 404 when absent; `vote_used` when not
ACTIVE; insert the fiscal vote row (again without chain columns); a
23505 violation is caught and answered with a redirect to the ballot
view; on success, if a council vote already exists for the unit and
election the token is set to USED inside the transaction and `vote_done`
is rendered, otherwise the handler redirects to the ballot view. -/
def postVotarTokenFiscales (db : DB) (tokenHash : String) (electionId fiscalListId : Int)
    (ip userAgent castAt : String) : DB × FiscalResult :=
  match findToken db tokenHash electionId with
  | none => (db, FiscalResult.invalidLink)
  | some vt =>
    if vt.status ≠ TokenStatus.ACTIVE then (db, FiscalResult.voteUsed)
    else if fiscalInsertConflict db electionId vt.unit_id then (db, FiscalResult.redirectBallot)
    else
      let db1 := { db with fiscal_votes := db.fiscal_votes ++
          [{ election_id := electionId, unit_id := vt.unit_id,
             fiscal_list_id := fiscalListId, token_id := vt.id,
             cast_at := castAt, ip := ip, user_agent := userAgent,
             chain_position := none, previous_hash := none, vote_hash := none }] }
      let hasCouncil := db1.votes.any (fun v =>
          v.election_id == electionId && v.unit_id == vt.unit_id)
      if hasCouncil then (markUsed db1 vt.id, FiscalResult.voteDone)
      else (db1, FiscalResult.redirectBallot)

/-- Pages the ballot view `GET /votar/:token` can answer with. -/
inductive BallotPage
| invalidLink
| preview
| voteUsed
| voteCouncil
| voteFiscal
deriving DecidableEq, Repr

/-- Embedding of `GET /votar/:token` (server.js): look the token up by
hash; 404 when absent; outside the voting window render the preview
page; otherwise compute whether the unit already has a council and a
fiscal vote for the election; when both exist and the token is somehow
still ACTIVE, set it to USED (a plain UPDATE on the read path) and
render `vote_used`; else render the council or the fiscal ballot. -/
def getVotarToken (db : DB) (tokenHash : String) (electionId : Int)
    (voteOpen : Bool) : DB × BallotPage :=
  match findToken db tokenHash electionId with
  | none => (db, BallotPage.invalidLink)
  | some vt =>
    if !voteOpen then (db, BallotPage.preview)
    else
      let hasCouncil := db.votes.any (fun v =>
          v.election_id == electionId && v.unit_id == vt.unit_id)
      let hasFiscal := db.fiscal_votes.any (fun v =>
          v.election_id == electionId && v.unit_id == vt.unit_id)
      if hasCouncil && hasFiscal then
        (if vt.status = TokenStatus.ACTIVE then markUsed db vt.id else db,
         BallotPage.voteUsed)
      else if !hasCouncil then (db, BallotPage.voteCouncil)
      else (db, BallotPage.voteFiscal)

/-- Embedding of the token issuing step shared by
`POST /admin/solicitudes/:id/aprobar` and `.../reemitir` (server.js):
`UPDATE vote_tokens SET status='REVOKED' WHERE election_id=$1 AND
unit_id=$2 AND status='ACTIVE'` followed by the INSERT of a fresh
ACTIVE token for the unit.  `revokeIfActive` is the per-row effect of
the UPDATE. -/
def revokeIfActive (electionId unitId : Int) (t : VoteToken) : VoteToken :=
  if t.election_id == electionId && t.unit_id == unitId &&
      t.status == TokenStatus.ACTIVE
  then { t with status := TokenStatus.REVOKED } else t

/-- The INSERT of the fresh ACTIVE token performed after the
revocation. -/
def freshToken (electionId unitId registrationId newId : Int)
    (newHash : String) : VoteToken :=
  { id := newId, registration_id := registrationId, unit_id := unitId,
    token_hash := newHash, status := TokenStatus.ACTIVE,
    election_id := electionId }

def issueToken (db : DB) (electionId unitId registrationId newId : Int)
    (newHash : String) : DB :=
  { db with tokens :=
      (db.tokens.map (revokeIfActive electionId unitId)) ++
      [freshToken electionId unitId registrationId newId newHash] }

/-- An admin session as the middleware sees it: `req.session?.admin?.id`.
Missing session or missing admin object are the `Option` layers; the id
is a number, and JavaScript truthiness makes the id 0 fail the check. -/
structure Request where
  session : Option (Option Int)
deriving DecidableEq, Repr

/-- Outcome of an auth middleware: pass the request on, or redirect to
the admin login page. -/
inductive Auth
| next
| redirectLogin
deriving DecidableEq, Repr

/-- Embedding of `requireAdmin` (middleware.js): pass iff
`req.session?.admin?.id` is truthy, else redirect to /admin/login. -/
def requireAdmin (req : Request) : Auth :=
  match req.session with
  | some (some id) => if id ≠ 0 then Auth.next else Auth.redirectLogin
  | _ => Auth.redirectLogin

/-- Embedding of `requireViewerOrAdmin` (middleware.js), whose body in
the source is character-for-character the same check as `requireAdmin`. -/
def requireViewerOrAdmin (req : Request) : Auth :=
  match req.session with
  | some (some id) => if id ≠ 0 then Auth.next else Auth.redirectLogin
  | _ => Auth.redirectLogin

/-- The uniqueness constraint the schema actually declares on `votes`:
`UNIQUE(unit_id)` (sql/001_schema.sql), one council ballot per unit
across every election. -/
def votesUnique (l : List VoteRow) : Prop :=
  l.Pairwise (fun a b => a.unit_id ≠ b.unit_id)

/-- The uniqueness constraint declared on `fiscal_votes`:
`UNIQUE(election_id, unit_id)` (sql/005 migration). -/
def fiscalVotesUnique (l : List FiscalVoteRow) : Prop :=
  l.Pairwise (fun a b => ¬(a.election_id = b.election_id ∧ a.unit_id = b.unit_id))

/-- Modelled from the spec sentence of C2 for comparison: the claimed
constraint on the council table, uniqueness over exactly the
(election id, voting unit) column pair of the row. -/
def claimedVotesUnique (l : List VoteRow) : Prop :=
  l.Pairwise (fun a b => ¬(a.election_id = b.election_id ∧ a.unit_id = b.unit_id))

/-- One row of a ballot chain as scripts/verify_chain.mjs reads it:
the columns used by the payload builders and the link checks.  Both the
council rows (choice = `candidate_id`) and the fiscal rows (choice =
`fiscal_list_id`) have this shape. -/
structure ChainRow where
  election_id : Int
  unit_id : Int
  choice_id : Int
  token_id : Int
  cast_at : String
  previous_hash : String
  vote_hash : String
  chain_position : Int
deriving DecidableEq, Repr

/-- The canonical payload object the payload builders of
scripts/verify_chain.mjs construct: the seven fields, in the source's
fixed insertion order. -/
structure Payload where
  election_id : Int
  unit_id : Int
  choice_id : Int
  token_id : Int
  cast_at : String
  previous_hash : String
  chain_position : Int
deriving DecidableEq, Repr

/-- The payload builder from scripts/verify_chain.mjs: the row's stored
columns plus the previous digest the walk carries along. -/
def payloadOf (r : ChainRow) (prev : String) : Payload :=
  { election_id := r.election_id, unit_id := r.unit_id,
    choice_id := r.choice_id, token_id := r.token_id,
    cast_at := r.cast_at, previous_hash := prev,
    chain_position := r.chain_position }

/-- The distinct failures verify_chain.mjs throws: a broken
previous-hash link at a position, a stored digest differing from the
recomputed one at a position, or the global hash disagreeing with the
persisted seal. -/
inductive VerifyError
| brokenLink (pos : Int)
| hashMismatch (pos : Int)
| sealMismatch
deriving DecidableEq, Repr

/-- Position carried by a per-record verification failure. -/
def VerifyError.pos : VerifyError → Option Int
  | VerifyError.brokenLink p => some p
  | VerifyError.hashMismatch p => some p
  | VerifyError.sealMismatch => none

/-- The loop body of `verifyTable` in scripts/verify_chain.mjs, walking
the rows in the order the query returned them while carrying the
previous digest and the concatenation of all digests seen so far.
`hp` stands for the source's sha256Hex (JSON.stringify payload). -/
def verifyWalk (hp : Payload → String) :
    List ChainRow → String → String → Except VerifyError String
  | [], _, concatenated => Except.ok concatenated
  | r :: rest, prevHash, concatenated =>
    if r.previous_hash ≠ prevHash then
      Except.error (VerifyError.brokenLink r.chain_position)
    else if hp (payloadOf r prevHash) ≠ r.vote_hash then
      Except.error (VerifyError.hashMismatch r.chain_position)
    else verifyWalk hp rest r.vote_hash (concatenated ++ r.vote_hash)

/-- Embedding of `verifyTable` (scripts/verify_chain.mjs): walk the
chain starting from the fixed digest GENESIS and an empty concatenation;
then compute the global hash (`hs` stands for sha256Hex on the
concatenated digests) and, when a seal row exists, fail distinctly if it
disagrees; when no seal is stored the script only warns.  On success the
global hash is returned. -/
def verifyTable (hp : Payload → String) (hs : String → String)
    (rows : List ChainRow) (sealHash : Option String) : Except VerifyError String :=
  match verifyWalk hp rows "GENESIS" "" with
  | Except.error e => Except.error e
  | Except.ok concatenated =>
    let globalHash := hs concatenated
    match sealHash with
    | none => Except.ok globalHash
    | some g =>
      if g ≠ globalHash then Except.error VerifyError.sealMismatch
      else Except.ok globalHash

/-- The four persisted ballot fields claim C5 considers mutating,
together with the replacement value. -/
inductive Mutation
| choice (v : Int)
| castAt (v : String)
| prevHash (v : String)
| voteHash (v : String)
deriving DecidableEq, Repr

/-- Apply a single-field mutation to a chain row. -/
def mutateRow (r : ChainRow) : Mutation → ChainRow
  | Mutation.choice v => { r with choice_id := v }
  | Mutation.castAt v => { r with cast_at := v }
  | Mutation.prevHash v => { r with previous_hash := v }
  | Mutation.voteHash v => { r with vote_hash := v }

/-- A mutation actually changes the row: the new value differs from the
stored one. -/
def Mutation.changes (m : Mutation) (r : ChainRow) : Prop :=
  match m with
  | Mutation.choice v => v ≠ r.choice_id
  | Mutation.castAt v => v ≠ r.cast_at
  | Mutation.prevHash v => v ≠ r.previous_hash
  | Mutation.voteHash v => v ≠ r.vote_hash

/-- Concrete fixture: an ACTIVE credential of unit 7 for election 1. -/
def tokActive : VoteToken :=
  { id := 1, registration_id := 1, unit_id := 7, token_hash := "th1",
    status := TokenStatus.ACTIVE, election_id := 1 }

/-- Concrete fixture: a store holding only that credential and no
ballots. -/
def dbEmpty : DB := { tokens := [tokActive], votes := [], fiscal_votes := [] }

/-- Concrete fixture: a fiscal ballot of unit 7 for election 1. -/
def fvRow : FiscalVoteRow :=
  { election_id := 1, unit_id := 7, fiscal_list_id := 2, token_id := 1,
    cast_at := "2026/01/01", ip := "203.0.113.5", user_agent := "agent",
    chain_position := none, previous_hash := none, vote_hash := none }

/-- Concrete fixture: the store after unit 7 cast its fiscal ballot
first, credential still ACTIVE. -/
def dbFiscalFirst : DB :=
  { tokens := [tokActive], votes := [], fiscal_votes := [fvRow] }

/-- Concrete council ballot rows used to compare the declared and the
claimed uniqueness constraints: same unit in two different elections. -/
def vruleA : VoteRow :=
  { election_id := 1, unit_id := 7, candidate_id := 3, token_id := 1,
    cast_at := "2026/01/01", ip := "ip", user_agent := "ua",
    chain_position := none, previous_hash := none, vote_hash := none }

/-- Second council ballot of the same unit, for another election. -/
def vruleB : VoteRow :=
  { election_id := 2, unit_id := 7, candidate_id := 4, token_id := 2,
    cast_at := "2027/01/01", ip := "ip", user_agent := "ua",
    chain_position := none, previous_hash := none, vote_hash := none }

/-- Council ballot of a different unit, same election as `vruleA`. -/
def vruleC : VoteRow :=
  { election_id := 1, unit_id := 8, candidate_id := 3, token_id := 3,
    cast_at := "2026/01/01", ip := "ip", user_agent := "ua",
    chain_position := none, previous_hash := none, vote_hash := none }

/-- C1 (status: code_bug).  The claim — and the repository's own README
and verifier — say a successful cast persists chain position tail+1,
previous digest (GENESIS on an empty chain) and a SHA-256 digest with
the ballot.  The cast handler's INSERT supplies none of the three chain
columns: on an empty chain, the successful council cast of unit 7
persists a ballot whose chain position, previous digest and output
digest are all NULL. -/
theorem postVotarToken_persists_no_chain_fields :
    (postVotarToken dbEmpty "th1" 1 3 "203.0.113.5" "agent" "2026/01/01").2
      = CouncilResult.redirectBallot ∧
    ((postVotarToken dbEmpty "th1" 1 3 "203.0.113.5" "agent" "2026/01/01").1.votes.map
      (fun v => (v.chain_position, v.previous_hash, v.vote_hash)))
      = [(none, none, none)] := by
  decide

/-- C3 (status: code_bug).  When the fiscal ballot was cast first, a
successful council cast completes both categories, yet the credential
stays ACTIVE: the UPDATE to USED in the council handler is commented out
in the source, so the transaction commits with both ballots recorded and
the token untouched. -/
theorem postVotarToken_leaves_token_active :
    (postVotarToken dbFiscalFirst "th1" 1 3 "203.0.113.5" "agent" "2026/01/02").2
      = CouncilResult.redirectBallot ∧
    (postVotarToken dbFiscalFirst "th1" 1 3 "203.0.113.5" "agent" "2026/01/02").1.votes.length = 1 ∧
    (postVotarToken dbFiscalFirst "th1" 1 3 "203.0.113.5" "agent" "2026/01/02").1.fiscal_votes.length = 1 ∧
    ((postVotarToken dbFiscalFirst "th1" 1 3 "203.0.113.5" "agent" "2026/01/02").1.tokens.map
      (fun t => t.status)) = [TokenStatus.ACTIVE] := by
  decide

/-- C9 (status: confirmed).  The viewer-or-admin guard and the admin
guard are extensionally equal, and both pass exactly when the session
carries a truthy admin id. -/
theorem requireViewerOrAdmin_eq_requireAdmin :
    ∀ req : Request, requireViewerOrAdmin req = requireAdmin req ∧
      (requireAdmin req = Auth.next ↔ ∃ id, req.session = some (some id) ∧ id ≠ 0) := by
  intro req
  constructor
  · cases h : req.session with
    | none => simp [requireAdmin, requireViewerOrAdmin, h]
    | some a =>
      cases a with
      | none => simp [requireAdmin, requireViewerOrAdmin, h]
      | some id => simp [requireAdmin, requireViewerOrAdmin, h]
  · cases h : req.session with
    | none => simp [requireAdmin, h]
    | some a =>
      cases a with
      | none => simp [requireAdmin, h]
      | some id =>
        by_cases hid : id = 0 <;> simp [requireAdmin, h, hid]

/-- C2 counterexample.  The claim says the council table carries a
uniqueness constraint on exactly (election id, voting unit); the schema
declares UNIQUE(unit_id).  The two-row state with the same unit in two
different elections separates them: it satisfies the claimed constraint
but violates the declared one, so the declared constraint is not the
claimed one. -/
theorem votesUnique_is_not_claimed_constraint :
    claimedVotesUnique [vruleA, vruleB] ∧ ¬ votesUnique [vruleA, vruleB] := by
  constructor
  · simp [claimedVotesUnique, vruleA, vruleB]
  · simp [votesUnique, vruleA, vruleB]

/-- C2 (status: corrected).  The declared constraints — UNIQUE(unit_id)
on `votes`, UNIQUE(election_id, unit_id) on `fiscal_votes` — each imply
at most one ballot row per (election, voting unit) in their table, i.e.
at most one ballot per (election id, category, voting unit). -/
theorem declared_constraints_imply_one_ballot_per_unit :
    (∀ l : List VoteRow, votesUnique l → ∀ v ∈ l, ∀ w ∈ l,
        v.election_id = w.election_id → v.unit_id = w.unit_id → v = w) ∧
    (∀ l : List FiscalVoteRow, fiscalVotesUnique l → ∀ v ∈ l, ∀ w ∈ l,
        v.election_id = w.election_id → v.unit_id = w.unit_id → v = w) := by
  constructor
  · intro l hl v hv w hw _ hu
    by_contra hne
    have hsymm : Symmetric (fun (a b : VoteRow) => a.unit_id ≠ b.unit_id) :=
      fun a b h e => h e.symm
    exact (hl.forall hsymm hv hw hne) hu
  · intro l hl v hv w hw he hu
    by_contra hne
    have hsymm : Symmetric (fun (a b : FiscalVoteRow) =>
        ¬(a.election_id = b.election_id ∧ a.unit_id = b.unit_id)) :=
      fun a b h p => h ⟨p.1.symm, p.2.symm⟩
    exact (hl.forall hsymm hv hw hne) ⟨he, hu⟩

/-- C2 witness: the declared council constraint holds of a concrete
two-row state (two units, one election) and the amended theorem applies
to it. -/
theorem declared_constraints_witness :
    votesUnique [vruleA, vruleC] ∧
    (∀ v ∈ [vruleA, vruleC], ∀ w ∈ [vruleA, vruleC],
        v.election_id = w.election_id → v.unit_id = w.unit_id → v = w) :=
  ⟨by simp [votesUnique, vruleA, vruleC],
   declared_constraints_imply_one_ballot_per_unit.1 [vruleA, vruleC]
     (by simp [votesUnique, vruleA, vruleC])⟩

/-- Concrete fixture: a REVOKED credential of unit 7 for election 1. -/
def tokRevoked : VoteToken :=
  { id := 2, registration_id := 1, unit_id := 7, token_hash := "th2",
    status := TokenStatus.REVOKED, election_id := 1 }

/-- Concrete fixture: a store holding only the revoked credential. -/
def dbRevoked : DB := { tokens := [tokRevoked], votes := [], fiscal_votes := [] }

/-- Concrete fixture: a council ballot of unit 7 for election 1. -/
def cvRow : VoteRow :=
  { election_id := 1, unit_id := 7, candidate_id := 3, token_id := 1,
    cast_at := "2026/01/01", ip := "203.0.113.5", user_agent := "agent",
    chain_position := none, previous_hash := none, vote_hash := none }

/-- Concrete fixture: unit 7 has cast both ballots, yet its credential
is still ACTIVE. -/
def dbBoth : DB :=
  { tokens := [tokActive], votes := [cvRow], fiscal_votes := [fvRow] }

/-- C7 counterexample.  An unknown secret and a revoked credential do
not receive the same response: the unknown hash gets the 404
invalid-link answer while the revoked credential gets the already-voted
page, so the two failure modes are distinguishable from outside. -/
theorem unknown_and_revoked_are_distinguishable :
    (postVotarToken dbRevoked "zzz" 1 3 "ip" "ua" "t").2 = CouncilResult.invalidLink ∧
    (postVotarToken dbRevoked "th2" 1 3 "ip" "ua" "t").2 = CouncilResult.voteUsed ∧
    CouncilResult.invalidLink ≠ CouncilResult.voteUsed := by
  decide

/-- C7 (status: corrected).  The council cast route answers an unknown
secret with the 404 invalid-link response and a known but non-ACTIVE
credential with the already-voted page, leaving the store unchanged in
both cases; the two responses are distinct constructors. -/
theorem postVotarToken_unknown_vs_inactive :
    ∀ (db : DB) (h : String) (e c : Int) (ip ua ts : String),
      (findToken db h e = none →
        postVotarToken db h e c ip ua ts = (db, CouncilResult.invalidLink)) ∧
      (∀ vt, findToken db h e = some vt → vt.status ≠ TokenStatus.ACTIVE →
        postVotarToken db h e c ip ua ts = (db, CouncilResult.voteUsed)) := by
  intro db h e c ip ua ts
  constructor
  · intro hfind
    simp [postVotarToken, hfind]
  · intro vt hfind hstat
    simp [postVotarToken, hfind, hstat]

/-- C7 witness: the amended statement applied to the concrete store
with the revoked credential, on an unknown hash. -/
theorem postVotarToken_unknown_vs_inactive_witness :
    findToken dbRevoked "zzz" 1 = none ∧
    postVotarToken dbRevoked "zzz" 1 3 "ip" "ua" "t" = (dbRevoked, CouncilResult.invalidLink) :=
  ⟨by decide,
   (postVotarToken_unknown_vs_inactive dbRevoked "zzz" 1 3 "ip" "ua" "t").1 (by decide)⟩

/-- C6 counterexample.  A fiscal cast that hits the uniqueness
constraint (unit 7 already has a fiscal ballot for election 1) is
answered with a redirect to the ballot view, not with the already-voted
page the claim promises. -/
theorem fiscal_duplicate_redirects :
    postVotarTokenFiscales dbFiscalFirst "th1" 1 2 "ip" "ua" "t"
        = (dbFiscalFirst, FiscalResult.redirectBallot) ∧
    FiscalResult.redirectBallot ≠ FiscalResult.voteUsed := by
  decide

/-- C6 (status: corrected).  For a credential that is not ACTIVE both
cast routes answer with the already-voted page; when the insert hits the
uniqueness constraint the council route answers with the already-voted
page while the fiscal route answers with a redirect to the ballot view.
In all four cases the returned store is the input store (the transaction
rolled back, no ledger row added) and no server error is produced. -/
theorem cast_failures_roll_back :
    ∀ (db : DB) (h : String) (e c f : Int) (ip ua ts : String) (vt : VoteToken),
      findToken db h e = some vt →
      ((vt.status ≠ TokenStatus.ACTIVE →
          postVotarToken db h e c ip ua ts = (db, CouncilResult.voteUsed) ∧
          postVotarTokenFiscales db h e f ip ua ts = (db, FiscalResult.voteUsed)) ∧
       (vt.status = TokenStatus.ACTIVE → votesInsertConflict db vt.unit_id = true →
          postVotarToken db h e c ip ua ts = (db, CouncilResult.voteUsed)) ∧
       (vt.status = TokenStatus.ACTIVE → fiscalInsertConflict db e vt.unit_id = true →
          postVotarTokenFiscales db h e f ip ua ts = (db, FiscalResult.redirectBallot))) := by
  intro db h e c f ip ua ts vt hfind
  refine ⟨fun hstat => ⟨?_, ?_⟩, fun hstat hconf => ?_, fun hstat hconf => ?_⟩
  · simp [postVotarToken, hfind, hstat]
  · simp [postVotarTokenFiscales, hfind, hstat]
  · simp [postVotarToken, hfind, hstat, hconf]
  · simp [postVotarTokenFiscales, hfind, hstat, hconf]

/-- C6 witness: the amended statement applied to the store with the
revoked credential. -/
theorem cast_failures_roll_back_witness :
    findToken dbRevoked "th2" 1 = some tokRevoked ∧
    tokRevoked.status ≠ TokenStatus.ACTIVE ∧
    postVotarToken dbRevoked "th2" 1 3 "ip" "ua" "t" = (dbRevoked, CouncilResult.voteUsed) :=
  ⟨by decide, by decide,
   ((cast_failures_roll_back dbRevoked "th2" 1 3 2 "ip" "ua" "t" tokRevoked
      (by decide)).1 (by decide)).1⟩

/-- C10 counterexample.  With both ballots recorded for unit 7 and its
credential still ACTIVE, a request outside the voting window renders the
preview page and performs no repair: the credential stays ACTIVE, so the
claimed transition does not happen on every such request. -/
theorem getVotarToken_no_repair_when_closed :
    getVotarToken dbBoth "th1" 1 false = (dbBoth, BallotPage.preview) ∧
    (dbBoth.tokens.map (fun t => t.status)) = [TokenStatus.ACTIVE] := by
  decide

/-- C10 (status: corrected).  During the open voting window, a ballot
view request whose unit already has both ballots and whose credential is
still ACTIVE sets the credential to USED on the read path and renders
the already-voted page. -/
theorem getVotarToken_repairs_when_open :
    ∀ (db : DB) (h : String) (e : Int) (vt : VoteToken),
      findToken db h e = some vt →
      db.votes.any (fun v => v.election_id == e && v.unit_id == vt.unit_id) = true →
      db.fiscal_votes.any (fun v => v.election_id == e && v.unit_id == vt.unit_id) = true →
      vt.status = TokenStatus.ACTIVE →
      getVotarToken db h e true = (markUsed db vt.id, BallotPage.voteUsed) ∧
      ∀ t' ∈ (markUsed db vt.id).tokens, t'.id = vt.id → t'.status = TokenStatus.USED := by
  intro db h e vt hfind hc hf hstat
  constructor
  · simp [getVotarToken, hfind, hc, hf, hstat]
  · intro t' ht' hid
    simp only [markUsed, List.mem_map] at ht'
    obtain ⟨t0, _, rfl⟩ := ht'
    by_cases h0 : t0.id == vt.id
    · simp [h0]
    · simp only [h0, if_false] at hid ⊢
      exact absurd (beq_iff_eq.mpr hid) (by simpa using h0)

/-- C10 witness: the amended statement applied to the concrete store in
which unit 7 has both ballots and an ACTIVE credential. -/
theorem getVotarToken_repairs_when_open_witness :
    findToken dbBoth "th1" 1 = some tokActive ∧
    tokActive.status = TokenStatus.ACTIVE ∧
    getVotarToken dbBoth "th1" 1 true = (markUsed dbBoth 1, BallotPage.voteUsed) :=
  ⟨by decide, by decide,
   (getVotarToken_repairs_when_open dbBoth "th1" 1 tokActive
      (by decide) (by decide) (by decide) (by decide)).1⟩

/-- The revocation map does not touch the hash or election columns. -/
lemma revokeIfActive_fields (e u : Int) (t : VoteToken) :
    (revokeIfActive e u t).token_hash = t.token_hash ∧
    (revokeIfActive e u t).election_id = t.election_id := by
  unfold revokeIfActive
  split <;> exact ⟨rfl, rfl⟩

/-- Looking a token hash up after the revocation map: when the hashes of
the stored tokens identify rows uniquely (the schema's UNIQUE
constraint on token_hash), the lookup of an ACTIVE token of the issuing
unit returns that token with status REVOKED, whatever rows follow. -/
lemma find?_revoke_append (e u : Int) (t : VoteToken) (rest : List VoteToken) :
    ∀ l : List VoteToken, t ∈ l →
      (∀ t' ∈ l, t'.token_hash = t.token_hash → t'.election_id = e → t' = t) →
      t.election_id = e → t.unit_id = u → t.status = TokenStatus.ACTIVE →
      ((l.map (revokeIfActive e u)) ++ rest).find?
          (fun x => x.token_hash == t.token_hash && x.election_id == e)
        = some { t with status := TokenStatus.REVOKED } := by
  intro l
  induction l with
  | nil => intro hmem; exact absurd hmem (List.not_mem_nil t)
  | cons a l ih =>
    intro hmem huniq he hu hs
    by_cases ha : a = t
    · subst ha
      have hcond : (a.election_id == e && a.unit_id == u &&
          a.status == TokenStatus.ACTIVE) = true := by
        simp [he, hu, hs]
      have hrev : revokeIfActive e u a = { a with status := TokenStatus.REVOKED } := by
        unfold revokeIfActive
        simp [hcond]
      rw [List.map_cons, hrev, List.cons_append]
      apply List.find?_cons_of_pos
      simp [he]
    · have hmem' : t ∈ l := by
        rcases List.mem_cons.mp hmem with h | h
        · exact absurd h.symm ha
        · exact h
      have hpred : ¬((fun x => x.token_hash == t.token_hash && x.election_id == e)
          (revokeIfActive e u a) = true) := by
        intro hp
        obtain ⟨hh, hel⟩ := revokeIfActive_fields e u a
        simp only [Bool.and_eq_true, beq_iff_eq] at hp
        exact ha (huniq a (List.mem_cons_self a l)
          (hh ▸ hp.1) (hel ▸ hp.2))
      have hfalse : ((revokeIfActive e u a).token_hash == t.token_hash &&
          (revokeIfActive e u a).election_id == e) = false :=
        Bool.eq_false_iff.mpr (by simpa using hpred)
      rw [List.map_cons, List.cons_append]
      simp only [List.find?, hfalse]
      exact ih hmem' (fun t' ht' => huniq t' (List.mem_cons_of_mem a ht')) he hu hs

/-- C8 counterexample.  After a second credential is issued for unit 7,
casting with the first credential's secret is answered with the
already-voted page, which is a different response from the 404
invalid-credential outcome the claim promises. -/
theorem cast_with_revoked_secret_shows_vote_used :
    ((issueToken dbEmpty 1 7 2 5 "th9").tokens.map (fun t => t.status))
        = [TokenStatus.REVOKED, TokenStatus.ACTIVE] ∧
    (postVotarToken (issueToken dbEmpty 1 7 2 5 "th9") "th1" 1 3 "ip" "ua" "t").2
        = CouncilResult.voteUsed ∧
    CouncilResult.voteUsed ≠ CouncilResult.invalidLink := by
  decide

/-- C8 (status: corrected).  Issuing a second credential while a first
one is ACTIVE transitions the first to REVOKED, and a subsequent cast
presenting the first credential's secret resolves the revoked row and is
answered with the already-voted page, the store unchanged. -/
theorem issueToken_revokes_and_cast_rejected :
    ∀ (db : DB) (e u rid nid : Int) (nh : String) (t : VoteToken),
      t ∈ db.tokens → t.election_id = e → t.unit_id = u →
      t.status = TokenStatus.ACTIVE →
      (∀ t' ∈ db.tokens, t'.token_hash = t.token_hash → t'.election_id = e → t' = t) →
      findToken (issueToken db e u rid nid nh) t.token_hash e
          = some { t with status := TokenStatus.REVOKED } ∧
      ∀ (c : Int) (ip ua ts : String),
        postVotarToken (issueToken db e u rid nid nh) t.token_hash e c ip ua ts
          = (issueToken db e u rid nid nh, CouncilResult.voteUsed) := by
  intro db e u rid nid nh t hmem he hu hs huniq
  have hfind : findToken (issueToken db e u rid nid nh) t.token_hash e
      = some { t with status := TokenStatus.REVOKED } := by
    unfold findToken issueToken
    exact find?_revoke_append e u t _ db.tokens hmem huniq he hu hs
  refine ⟨hfind, ?_⟩
  intro c ip ua ts
  have hstat : ({ t with status := TokenStatus.REVOKED } : VoteToken).status
      ≠ TokenStatus.ACTIVE := by simp
  simp [postVotarToken, hfind, hstat]

/-- C8 witness: the amended statement applied to the concrete store with
one ACTIVE credential for unit 7. -/
theorem issueToken_revokes_witness :
    tokActive ∈ dbEmpty.tokens ∧
    findToken (issueToken dbEmpty 1 7 2 5 "th9") "th1" 1
        = some { tokActive with status := TokenStatus.REVOKED } :=
  ⟨by decide,
   (issueToken_revokes_and_cast_rejected dbEmpty 1 7 2 5 "th9" tokActive
      (by decide) (by decide) (by decide) (by decide)
      (by decide)).1⟩

/-- Concatenation of the stored output digests in walk order — the
string verify_chain.mjs accumulates and hashes into the global hash. -/
def digestConcat : List ChainRow → String
  | [] => ""
  | r :: rest => r.vote_hash ++ digestConcat rest

/-- The digest a record should be linked to after the walk has passed a
list of records: the last one's output digest, or the start digest when
none were passed. -/
def prevOfFrom (prev : String) : List ChainRow → String
  | [] => prev
  | r :: rest => prevOfFrom r.vote_hash rest

/-- Specification-level link condition: the stored previous digests are
exactly the output digests shifted by one, starting from GENESIS. -/
def linksOk (rows : List ChainRow) : Prop :=
  rows.map (fun r => r.previous_hash)
    = ("GENESIS" :: rows.map (fun r => r.vote_hash)).take rows.length

/-- Specification-level hash condition: every record's stored output
digest equals the digest recomputed from its stored fields. -/
def hashesOk (hp : Payload → String) (rows : List ChainRow) : Prop :=
  ∀ r ∈ rows, r.vote_hash = hp (payloadOf r r.previous_hash)

/-- Specification-level seal condition: when a seal row is stored, it
equals the hash of the concatenated digests; absence of a seal is only a
warning. -/
def sealOk (hs : String → String) (rows : List ChainRow)
    (sealHash : Option String) : Prop :=
  ∀ g, sealHash = some g → g = hs (digestConcat rows)

/-- Splitting the walk at a list append: the walk of the whole list is
the walk of the prefix followed, on success, by the walk of the suffix
from the prefix's final digest and accumulated concatenation. -/
lemma verifyWalk_append (hp : Payload → String) :
    ∀ (a rest : List ChainRow) (prev cat : String),
      verifyWalk hp (a ++ rest) prev cat
        = match verifyWalk hp a prev cat with
          | Except.error e => Except.error e
          | Except.ok cat' => verifyWalk hp rest (prevOfFrom prev a) cat' := by
  intro a
  induction a with
  | nil => intro rest prev cat; rfl
  | cons r a ih =>
    intro rest prev cat
    by_cases h1 : r.previous_hash = prev
    · by_cases h2 : hp (payloadOf r prev) = r.vote_hash
      · have hl : verifyWalk hp ((r :: a) ++ rest) prev cat
            = verifyWalk hp (a ++ rest) r.vote_hash (cat ++ r.vote_hash) := by
          simp [verifyWalk, h1, h2]
        have hr : verifyWalk hp (r :: a) prev cat
            = verifyWalk hp a r.vote_hash (cat ++ r.vote_hash) := by
          simp [verifyWalk, h1, h2]
        rw [hl, hr, prevOfFrom]
        exact ih rest r.vote_hash (cat ++ r.vote_hash)
      · simp [verifyWalk, h1, h2, prevOfFrom]
    · simp [verifyWalk, h1, prevOfFrom]

/-- On success the walk returns the input concatenation extended by the
digests of the walked records. -/
lemma verifyWalk_ok_concat (hp : Payload → String) :
    ∀ (rows : List ChainRow) (prev cat s : String),
      verifyWalk hp rows prev cat = Except.ok s → s = cat ++ digestConcat rows := by
  intro rows
  induction rows with
  | nil =>
    intro prev cat s h
    simp only [verifyWalk] at h
    cases h
    exact (String.append_empty cat).symm
  | cons r rest ih =>
    intro prev cat s h
    by_cases h1 : r.previous_hash = prev
    · by_cases h2 : hp (payloadOf r prev) = r.vote_hash
      · have hstep : verifyWalk hp (r :: rest) prev cat
            = verifyWalk hp rest r.vote_hash (cat ++ r.vote_hash) := by
          simp [verifyWalk, h1, h2]
        rw [hstep] at h
        have := ih r.vote_hash (cat ++ r.vote_hash) s h
        rw [this, digestConcat, String.append_assoc]
      · simp [verifyWalk, h1, h2] at h
    · simp [verifyWalk, h1] at h

/-- The walk succeeds exactly when the records satisfy the link
condition (relative to the start digest) and the hash condition. -/
lemma verifyWalk_isOk_iff (hp : Payload → String) :
    ∀ (rows : List ChainRow) (prev cat : String),
      (verifyWalk hp rows prev cat).isOk = true ↔
        (rows.map (fun r => r.previous_hash)
            = (prev :: rows.map (fun r => r.vote_hash)).take rows.length ∧
         ∀ r ∈ rows, r.vote_hash = hp (payloadOf r r.previous_hash)) := by
  intro rows
  induction rows with
  | nil =>
    intro prev cat
    simp [verifyWalk, Except.isOk, Except.toBool]
  | cons r rest ih =>
    intro prev cat
    by_cases h1 : r.previous_hash = prev
    · by_cases h2 : hp (payloadOf r prev) = r.vote_hash
      · have hstep : verifyWalk hp (r :: rest) prev cat
            = verifyWalk hp rest r.vote_hash (cat ++ r.vote_hash) := by
          simp [verifyWalk, h1, h2]
        rw [hstep, ih r.vote_hash (cat ++ r.vote_hash)]
        constructor
        · rintro ⟨hl, hh⟩
          refine ⟨?_, ?_⟩
          · simp only [List.map_cons, List.length_cons, List.take_succ_cons, hl, h1]
          · intro r' hr'
            rcases List.mem_cons.mp hr' with h | h
            · subst h; rw [h1]; exact h2.symm
            · exact hh r' h
        · rintro ⟨hl, hh⟩
          simp only [List.map_cons, List.length_cons, List.take_succ_cons,
            List.cons.injEq] at hl
          exact ⟨hl.2, fun r' hr' => hh r' (List.mem_cons_of_mem r hr')⟩
      · have hstep : verifyWalk hp (r :: rest) prev cat
            = Except.error (VerifyError.hashMismatch r.chain_position) := by
          simp [verifyWalk, h1, h2]
        rw [hstep]
        refine iff_of_false (by simp [Except.isOk, Except.toBool]) ?_
        rintro ⟨_, hh⟩
        exact h2 ((h1 ▸ (hh r (List.mem_cons_self r rest))).symm)
    · have hstep : verifyWalk hp (r :: rest) prev cat
          = Except.error (VerifyError.brokenLink r.chain_position) := by
        simp [verifyWalk, h1]
      rw [hstep]
      refine iff_of_false (by simp [Except.isOk, Except.toBool]) ?_
      rintro ⟨hl, _⟩
      simp only [List.map_cons, List.length_cons, List.take_succ_cons,
        List.cons.injEq] at hl
      exact h1 hl.1

/-- A walk failure names a record of the list and the check it failed:
a broken link is reported at a record whose stored previous digest
differs from its predecessor's output digest, a hash mismatch at a
record whose stored output digest differs from the recomputed one. -/
lemma verifyWalk_error (hp : Payload → String) :
    ∀ (rows : List ChainRow) (prev cat : String) (e : VerifyError),
      verifyWalk hp rows prev cat = Except.error e →
      ∃ pre r suf, rows = pre ++ r :: suf ∧
        ((e = VerifyError.brokenLink r.chain_position ∧
            r.previous_hash ≠ prevOfFrom prev pre) ∨
         (e = VerifyError.hashMismatch r.chain_position ∧
            r.previous_hash = prevOfFrom prev pre ∧
            hp (payloadOf r r.previous_hash) ≠ r.vote_hash)) := by
  intro rows
  induction rows with
  | nil => intro prev cat e h; simp [verifyWalk] at h
  | cons r rest ih =>
    intro prev cat e h
    by_cases h1 : r.previous_hash = prev
    · by_cases h2 : hp (payloadOf r prev) = r.vote_hash
      · have hstep : verifyWalk hp (r :: rest) prev cat
            = verifyWalk hp rest r.vote_hash (cat ++ r.vote_hash) := by
          simp [verifyWalk, h1, h2]
        rw [hstep] at h
        obtain ⟨pre, r', suf, hsplit, hcase⟩ := ih r.vote_hash (cat ++ r.vote_hash) e h
        exact ⟨r :: pre, r', suf, by rw [hsplit]; rfl, hcase⟩
      · have hstep : verifyWalk hp (r :: rest) prev cat
            = Except.error (VerifyError.hashMismatch r.chain_position) := by
          simp [verifyWalk, h1, h2]
        rw [hstep] at h
        cases h
        exact ⟨[], r, rest, rfl, Or.inr ⟨rfl, h1, by rw [h1]; exact h2⟩⟩
    · have hstep : verifyWalk hp (r :: rest) prev cat
          = Except.error (VerifyError.brokenLink r.chain_position) := by
        simp [verifyWalk, h1]
      rw [hstep] at h
      cases h
      exact ⟨[], r, rest, rfl, Or.inl ⟨rfl, h1⟩⟩

/-- Concrete stand-in for the payload hash used in counterexamples and
witnesses: the chain position rendered as a string. -/
def hpPos : Payload → String := fun p => toString p.chain_position

/-- Concrete stand-in for the digest-fold hash used in counterexamples
and witnesses. -/
def hsId : String → String := fun s => s

/-- Concrete fixture: a well-linked record at position 1. -/
def gapRow1 : ChainRow :=
  { election_id := 1, unit_id := 7, choice_id := 3, token_id := 1,
    cast_at := "2026/01/01", previous_hash := "GENESIS", vote_hash := "1",
    chain_position := 1 }

/-- Concrete fixture: a well-linked record at position 3 — the chain
skips position 2. -/
def gapRow3 : ChainRow :=
  { election_id := 1, unit_id := 8, choice_id := 3, token_id := 2,
    cast_at := "2026/01/02", previous_hash := "1", vote_hash := "3",
    chain_position := 3 }

/-- Concrete fixture: a record whose stored previous digest is not
GENESIS. -/
def brokenRow : ChainRow :=
  { election_id := 1, unit_id := 7, choice_id := 3, token_id := 1,
    cast_at := "2026/01/01", previous_hash := "XX", vote_hash := "1",
    chain_position := 1 }

/-- C4 counterexample.  A chain whose positions are 1 and 3 — skipping
position 2 — passes verification as long as the links and digests are
consistent: the verifier never checks that positions are gap-free, while
the claim says a gap is reported as a distinct failure. -/
theorem verifyTable_accepts_position_gap :
    (verifyTable hpPos hsId [gapRow1, gapRow3] none).isOk = true ∧
    gapRow1.chain_position = 1 ∧ gapRow3.chain_position = 3 := by
  decide

/-- C4 (status: corrected).  The verifier accepts a stored chain exactly
when every record's stored previous digest equals its predecessor's
output digest (GENESIS for the first record walked), every stored output
digest equals the digest recomputed from the record's stored fields, and
any persisted seal equals the hash of the concatenated digests; every
failure is reported either at the chain position of an offending record
with the reason (broken link or hash mismatch) or as the distinct
seal-mismatch outcome.  Gap-freeness of the positions is not among the
accepted conditions. -/
theorem verifyTable_checks_links_hashes_seal :
    ∀ (hp : Payload → String) (hs : String → String) (rows : List ChainRow)
      (sealHash : Option String),
      ((verifyTable hp hs rows sealHash).isOk = true ↔
        (linksOk rows ∧ hashesOk hp rows ∧ sealOk hs rows sealHash)) ∧
      (∀ e, verifyTable hp hs rows sealHash = Except.error e →
        (∃ pre r suf, rows = pre ++ r :: suf ∧
          ((e = VerifyError.brokenLink r.chain_position ∧
              r.previous_hash ≠ prevOfFrom "GENESIS" pre) ∨
           (e = VerifyError.hashMismatch r.chain_position ∧
              hp (payloadOf r r.previous_hash) ≠ r.vote_hash))) ∨
        (e = VerifyError.sealMismatch ∧
          ∃ g, sealHash = some g ∧ g ≠ hs (digestConcat rows))) := by
  intro hp hs rows sealHash
  cases hwalk : verifyWalk hp rows "GENESIS" "" with
  | error e0 =>
    have htab : verifyTable hp hs rows sealHash = Except.error e0 := by
      unfold verifyTable
      rw [hwalk]
    constructor
    · rw [htab]
      refine iff_of_false (by simp [Except.isOk, Except.toBool]) ?_
      rintro ⟨hl, hh, _⟩
      have hok : (verifyWalk hp rows "GENESIS" "").isOk = true :=
        (verifyWalk_isOk_iff hp rows "GENESIS" "").mpr ⟨hl, hh⟩
      rw [hwalk] at hok
      exact Bool.noConfusion hok
    · intro e he
      rw [htab] at he
      cases he
      obtain ⟨pre, r, suf, hsplit, hcase⟩ :=
        verifyWalk_error hp rows "GENESIS" "" e0 hwalk
      refine Or.inl ⟨pre, r, suf, hsplit, ?_⟩
      rcases hcase with ⟨h1, h2⟩ | ⟨h1, h2, h3⟩
      · exact Or.inl ⟨h1, h2⟩
      · exact Or.inr ⟨h1, h3⟩
  | ok cat' =>
    have hcat : cat' = digestConcat rows := by
      have := verifyWalk_ok_concat hp rows "GENESIS" "" cat' hwalk
      rwa [String.empty_append] at this
    have hlh : linksOk rows ∧ hashesOk hp rows := by
      have hok : (verifyWalk hp rows "GENESIS" "").isOk = true := by
        rw [hwalk]; rfl
      exact (verifyWalk_isOk_iff hp rows "GENESIS" "").mp hok
    cases sealHash with
    | none =>
      have htab : verifyTable hp hs rows none = Except.ok (hs cat') := by
        unfold verifyTable
        rw [hwalk]
      constructor
      · rw [htab]
        refine iff_of_true rfl ⟨hlh.1, hlh.2, ?_⟩
        intro g hg
        cases hg
      · intro e he
        rw [htab] at he
        cases he
    | some g =>
      by_cases hg : g = hs cat'
      · have htab : verifyTable hp hs rows (some g) = Except.ok (hs cat') := by
          unfold verifyTable
          rw [hwalk]
          simp [hg]
        constructor
        · rw [htab]
          refine iff_of_true rfl ⟨hlh.1, hlh.2, ?_⟩
          intro g' hg'
          cases hg'
          rw [hg, hcat]
        · intro e he
          rw [htab] at he
          cases he
      · have htab : verifyTable hp hs rows (some g)
            = Except.error VerifyError.sealMismatch := by
          unfold verifyTable
          rw [hwalk]
          simp [hg]
        constructor
        · rw [htab]
          refine iff_of_false (by simp [Except.isOk, Except.toBool]) ?_
          rintro ⟨_, _, hsl⟩
          refine hg ?_
          rw [hcat]
          exact hsl g rfl
        · intro e he
          rw [htab] at he
          cases he
          exact Or.inr ⟨rfl, g, rfl, by rw [← hcat]; exact hg⟩

/-- C4 witness: the characterization applied to the concrete one-record
chain whose previous digest is not GENESIS, exhibiting the reported
position and reason. -/
theorem verifyTable_checks_witness :
    verifyTable hpPos hsId [brokenRow] none
        = Except.error (VerifyError.brokenLink 1) ∧
    ((∃ pre r suf, [brokenRow] = pre ++ r :: suf ∧
        ((VerifyError.brokenLink 1 = VerifyError.brokenLink r.chain_position ∧
            r.previous_hash ≠ prevOfFrom "GENESIS" pre) ∨
         (VerifyError.brokenLink 1 = VerifyError.hashMismatch r.chain_position ∧
            hpPos (payloadOf r r.previous_hash) ≠ r.vote_hash))) ∨
     (VerifyError.brokenLink 1 = VerifyError.sealMismatch ∧
        ∃ g, (none : Option String) = some g ∧ g ≠ hsId (digestConcat [brokenRow]))) :=
  ⟨by rfl,
   (verifyTable_checks_links_hashes_seal hpPos hsId [brokenRow] none).2
     (VerifyError.brokenLink 1) (by rfl)⟩

/-- Digest concatenation distributes over list append. -/
lemma digestConcat_append :
    ∀ a b : List ChainRow, digestConcat (a ++ b) = digestConcat a ++ digestConcat b := by
  intro a b
  induction a with
  | nil => rw [List.nil_append, digestConcat, String.empty_append]
  | cons r a ih =>
    rw [List.cons_append, digestConcat, digestConcat, ih, String.append_assoc]

/-- Left cancellation for string append. -/
lemma str_append_cancel_left {s x y : String} (h : s ++ x = s ++ y) : x = y := by
  have hd := congrArg String.data h
  simp only [String.data_append] at hd
  exact String.ext (List.append_cancel_left hd)

/-- Right cancellation for string append. -/
lemma str_append_cancel_right {x y t : String} (h : x ++ t = y ++ t) : x = y := by
  have hd := congrArg String.data h
  simp only [String.data_append] at hd
  exact String.ext (List.append_cancel_right hd)

/-- One walk step fails with a broken link when the head's stored
previous digest differs from the carried digest. -/
lemma verifyWalk_cons_brokenLink (hp : Payload → String) (r : ChainRow)
    (rest : List ChainRow) (prev cat : String)
    (h1 : r.previous_hash ≠ prev) :
    verifyWalk hp (r :: rest) prev cat
      = Except.error (VerifyError.brokenLink r.chain_position) := by
  simp [verifyWalk, h1]

/-- One walk step fails with a hash mismatch when the link matches but
the recomputed digest differs from the stored one. -/
lemma verifyWalk_cons_hashMismatch (hp : Payload → String) (r : ChainRow)
    (rest : List ChainRow) (prev cat : String)
    (h1 : r.previous_hash = prev) (h2 : hp (payloadOf r prev) ≠ r.vote_hash) :
    verifyWalk hp (r :: rest) prev cat
      = Except.error (VerifyError.hashMismatch r.chain_position) := by
  simp [verifyWalk, h1, h2]

/-- The cryptographic assumption claim C5 needs from the payload hash:
when the mutation changes a field that enters the canonical payload
(choice id or timestamp), hashing the mutated payload does not collide
with the stored record's digest input.  Mutations of the previous or the
output digest need no assumption about the hash. -/
def Mutation.collisionFree (hp : Payload → String) (m : Mutation) (r : ChainRow) : Prop :=
  match m with
  | Mutation.choice _ =>
      hp (payloadOf (mutateRow r m) r.previous_hash) ≠ hp (payloadOf r r.previous_hash)
  | Mutation.castAt _ =>
      hp (payloadOf (mutateRow r m) r.previous_hash) ≠ hp (payloadOf r r.previous_hash)
  | Mutation.prevHash _ => True
  | Mutation.voteHash _ => True

/-- C5 (status: corrected).  Starting from a chain the verifier accepts
against a stored seal, a single-field mutation of one record (choice id,
timestamp, previous digest or output digest) makes the verifier fail at
that record's chain position; the seal fold, however, changes only when
the mutated field is the output digest — for the three other fields the
refolded digest still equals the stored seal, because the fold reads
only the output digests. -/
theorem verifyTable_detects_single_field_tampering :
    ∀ (hp : Payload → String) (hs : String → String)
      (a b : List ChainRow) (r : ChainRow) (g : String) (m : Mutation),
      (verifyTable hp hs (a ++ r :: b) (some g)).isOk = true →
      m.changes r →
      Mutation.collisionFree hp m r →
      ((∃ e, verifyTable hp hs (a ++ mutateRow r m :: b) (some g) = Except.error e ∧
          VerifyError.pos e = some r.chain_position) ∧
       (match m with
        | Mutation.voteHash _ =>
            digestConcat (a ++ mutateRow r m :: b) ≠ digestConcat (a ++ r :: b)
        | _ => hs (digestConcat (a ++ mutateRow r m :: b)) = g)) := by
  intro hp hs a b r g m hvalid hch hcf
  cases hwalk : verifyWalk hp (a ++ r :: b) "GENESIS" "" with
  | error e0 =>
    exfalso
    unfold verifyTable at hvalid
    rw [hwalk] at hvalid
    exact Bool.noConfusion hvalid
  | ok cat' =>
    have hcat : cat' = digestConcat (a ++ r :: b) := by
      have := verifyWalk_ok_concat hp (a ++ r :: b) "GENESIS" "" cat' hwalk
      rwa [String.empty_append] at this
    have hseal : g = hs cat' := by
      unfold verifyTable at hvalid
      rw [hwalk] at hvalid
      by_cases hg : g = hs cat'
      · exact hg
      · exfalso
        simp only [hg, ne_eq, not_false_eq_true, if_true] at hvalid
        exact Bool.noConfusion hvalid
    cases hwa : verifyWalk hp a "GENESIS" "" with
    | error ea =>
      exfalso
      rw [verifyWalk_append hp a (r :: b) "GENESIS" "", hwa] at hwalk
      exact Except.noConfusion hwalk
    | ok cata =>
      have hwtail : verifyWalk hp (r :: b) (prevOfFrom "GENESIS" a) cata
          = Except.ok cat' := by
        rw [verifyWalk_append hp a (r :: b) "GENESIS" "", hwa] at hwalk
        exact hwalk
      have hlink : r.previous_hash = prevOfFrom "GENESIS" a := by
        by_cases h1 : r.previous_hash = prevOfFrom "GENESIS" a
        · exact h1
        · simp [verifyWalk, h1] at hwtail
      have hhash : hp (payloadOf r (prevOfFrom "GENESIS" a)) = r.vote_hash := by
        by_cases h2 : hp (payloadOf r (prevOfFrom "GENESIS" a)) = r.vote_hash
        · exact h2
        · simp [verifyWalk, hlink, h2] at hwtail
      cases m with
      | prevHash v =>
        have hchv : v ≠ r.previous_hash := hch
        have hvne : ¬(v = prevOfFrom "GENESIS" a) := by
          rw [← hlink]; exact hchv
        have hwmut : verifyWalk hp (mutateRow r (Mutation.prevHash v) :: b)
            (prevOfFrom "GENESIS" a) cata
            = Except.error (VerifyError.brokenLink r.chain_position) :=
          verifyWalk_cons_brokenLink hp _ b _ cata hvne
        have hfull : verifyWalk hp (a ++ mutateRow r (Mutation.prevHash v) :: b) "GENESIS" ""
            = Except.error (VerifyError.brokenLink r.chain_position) := by
          rw [verifyWalk_append hp a _ "GENESIS" "", hwa]
          exact hwmut
        have htab : verifyTable hp hs (a ++ mutateRow r (Mutation.prevHash v) :: b)
            (some g) = Except.error (VerifyError.brokenLink r.chain_position) := by
          unfold verifyTable
          rw [hfull]
        refine ⟨⟨VerifyError.brokenLink r.chain_position, htab, rfl⟩, ?_⟩
        have hdc : digestConcat (a ++ mutateRow r (Mutation.prevHash v) :: b)
            = digestConcat (a ++ r :: b) := by
          rw [digestConcat_append, digestConcat_append]
          rfl
        rw [hdc, ← hcat]
        exact hseal.symm
      | choice v =>
        have hcfv : hp (payloadOf (mutateRow r (Mutation.choice v)) r.previous_hash)
            ≠ hp (payloadOf r r.previous_hash) := hcf
        have hne : hp (payloadOf (mutateRow r (Mutation.choice v))
            (prevOfFrom "GENESIS" a))
            ≠ (mutateRow r (Mutation.choice v)).vote_hash := by
          rw [← hlink]
          intro hcontra
          exact hcfv (by rw [hcontra]; exact (hlink ▸ hhash).symm)
        have hwmut : verifyWalk hp (mutateRow r (Mutation.choice v) :: b)
            (prevOfFrom "GENESIS" a) cata
            = Except.error (VerifyError.hashMismatch r.chain_position) :=
          verifyWalk_cons_hashMismatch hp _ b _ cata hlink hne
        have hfull : verifyWalk hp (a ++ mutateRow r (Mutation.choice v) :: b) "GENESIS" ""
            = Except.error (VerifyError.hashMismatch r.chain_position) := by
          rw [verifyWalk_append hp a _ "GENESIS" "", hwa]
          exact hwmut
        have htab : verifyTable hp hs (a ++ mutateRow r (Mutation.choice v) :: b)
            (some g) = Except.error (VerifyError.hashMismatch r.chain_position) := by
          unfold verifyTable
          rw [hfull]
        refine ⟨⟨VerifyError.hashMismatch r.chain_position, htab, rfl⟩, ?_⟩
        have hdc : digestConcat (a ++ mutateRow r (Mutation.choice v) :: b)
            = digestConcat (a ++ r :: b) := by
          rw [digestConcat_append, digestConcat_append]
          rfl
        rw [hdc, ← hcat]
        exact hseal.symm
      | castAt v =>
        have hcfv : hp (payloadOf (mutateRow r (Mutation.castAt v)) r.previous_hash)
            ≠ hp (payloadOf r r.previous_hash) := hcf
        have hne : hp (payloadOf (mutateRow r (Mutation.castAt v))
            (prevOfFrom "GENESIS" a))
            ≠ (mutateRow r (Mutation.castAt v)).vote_hash := by
          rw [← hlink]
          intro hcontra
          exact hcfv (by rw [hcontra]; exact (hlink ▸ hhash).symm)
        have hwmut : verifyWalk hp (mutateRow r (Mutation.castAt v) :: b)
            (prevOfFrom "GENESIS" a) cata
            = Except.error (VerifyError.hashMismatch r.chain_position) :=
          verifyWalk_cons_hashMismatch hp _ b _ cata hlink hne
        have hfull : verifyWalk hp (a ++ mutateRow r (Mutation.castAt v) :: b) "GENESIS" ""
            = Except.error (VerifyError.hashMismatch r.chain_position) := by
          rw [verifyWalk_append hp a _ "GENESIS" "", hwa]
          exact hwmut
        have htab : verifyTable hp hs (a ++ mutateRow r (Mutation.castAt v) :: b)
            (some g) = Except.error (VerifyError.hashMismatch r.chain_position) := by
          unfold verifyTable
          rw [hfull]
        refine ⟨⟨VerifyError.hashMismatch r.chain_position, htab, rfl⟩, ?_⟩
        have hdc : digestConcat (a ++ mutateRow r (Mutation.castAt v) :: b)
            = digestConcat (a ++ r :: b) := by
          rw [digestConcat_append, digestConcat_append]
          rfl
        rw [hdc, ← hcat]
        exact hseal.symm
      | voteHash v =>
        have hchv : v ≠ r.vote_hash := hch
        have hne : hp (payloadOf (mutateRow r (Mutation.voteHash v))
            (prevOfFrom "GENESIS" a))
            ≠ (mutateRow r (Mutation.voteHash v)).vote_hash := by
          have hpay : payloadOf (mutateRow r (Mutation.voteHash v))
              (prevOfFrom "GENESIS" a) = payloadOf r (prevOfFrom "GENESIS" a) := rfl
          rw [hpay, hhash]
          exact fun hcontra => hchv hcontra.symm
        have hwmut : verifyWalk hp (mutateRow r (Mutation.voteHash v) :: b)
            (prevOfFrom "GENESIS" a) cata
            = Except.error (VerifyError.hashMismatch r.chain_position) :=
          verifyWalk_cons_hashMismatch hp _ b _ cata hlink hne
        have hfull : verifyWalk hp (a ++ mutateRow r (Mutation.voteHash v) :: b) "GENESIS" ""
            = Except.error (VerifyError.hashMismatch r.chain_position) := by
          rw [verifyWalk_append hp a _ "GENESIS" "", hwa]
          exact hwmut
        have htab : verifyTable hp hs (a ++ mutateRow r (Mutation.voteHash v) :: b)
            (some g) = Except.error (VerifyError.hashMismatch r.chain_position) := by
          unfold verifyTable
          rw [hfull]
        refine ⟨⟨VerifyError.hashMismatch r.chain_position, htab, rfl⟩, ?_⟩
        intro heq
        rw [digestConcat_append, digestConcat_append] at heq
        have h1 : digestConcat (mutateRow r (Mutation.voteHash v) :: b)
            = digestConcat (r :: b) := str_append_cancel_left heq
        rw [digestConcat, digestConcat] at h1
        exact hchv (str_append_cancel_right h1)

/-- Concrete stand-in payload hash for the tampering claim: the choice
id rendered as a string, so that changing the choice changes the
digest. -/
def hpChoice : Payload → String := fun p => toString p.choice_id

/-- Concrete fixture: a one-record chain that verifies against the
stored seal under `hpChoice` and `hsId`. -/
def sealedRow : ChainRow :=
  { election_id := 1, unit_id := 7, choice_id := 1, token_id := 1,
    cast_at := "2026/01/01", previous_hash := "GENESIS", vote_hash := "1",
    chain_position := 1 }

/-- C5 counterexample.  Mutating the choice id of the single record of a
valid sealed chain makes verification fail at its position, but the seal
fold — which reads only the output digests — is unchanged and still
equals the stored seal, contradicting the claim that every single-field
mutation also makes the seal fold mismatch. -/
theorem choice_tamper_keeps_seal_fold :
    (verifyTable hpChoice hsId [sealedRow] (some "1")).isOk = true ∧
    Mutation.changes (Mutation.choice 2) sealedRow ∧
    verifyTable hpChoice hsId [mutateRow sealedRow (Mutation.choice 2)] (some "1")
        = Except.error (VerifyError.hashMismatch 1) ∧
    hsId (digestConcat [mutateRow sealedRow (Mutation.choice 2)]) = "1" := by
  refine ⟨by rfl, by show (2 : Int) ≠ sealedRow.choice_id; decide, by rfl, by rfl⟩

/-- C5 witness: the tamper-detection statement applied to the concrete
sealed one-record chain with a choice-id mutation. -/
theorem verifyTable_detects_tampering_witness :
    (verifyTable hpChoice hsId ([] ++ sealedRow :: []) (some "1")).isOk = true ∧
    Mutation.changes (Mutation.choice 2) sealedRow ∧
    Mutation.collisionFree hpChoice (Mutation.choice 2) sealedRow ∧
    ((∃ e, verifyTable hpChoice hsId
          ([] ++ mutateRow sealedRow (Mutation.choice 2) :: []) (some "1")
          = Except.error e ∧
        VerifyError.pos e = some sealedRow.chain_position) ∧
     hsId (digestConcat ([] ++ mutateRow sealedRow (Mutation.choice 2) :: [])) = "1") :=
  ⟨by rfl, by show (2 : Int) ≠ sealedRow.choice_id; decide,
   by
     show hpChoice (payloadOf (mutateRow sealedRow (Mutation.choice 2))
         sealedRow.previous_hash)
       ≠ hpChoice (payloadOf sealedRow sealedRow.previous_hash)
     decide,
   verifyTable_detects_single_field_tampering hpChoice hsId [] [] sealedRow "1"
     (Mutation.choice 2) (by rfl)
     (by show (2 : Int) ≠ sealedRow.choice_id; decide)
     (by
       show hpChoice (payloadOf (mutateRow sealedRow (Mutation.choice 2))
           sealedRow.previous_hash)
         ≠ hpChoice (payloadOf sealedRow sealedRow.previous_hash)
       decide)⟩

end Urbisol
